import Mathlib

/-!
Verification of the math-mcp expression evaluator against its specification.

The TypeScript/JavaScript sources are shallowly embedded. JavaScript numbers
are modelled by `JNum`: an exact rational together with the IEEE special
values NaN, Infinity and -Infinity. The special values are tracked faithfully
(they are what the validation code inspects); rounding of representable
results and overflow of the basic rational operations are idealized as exact,
which is noted at each definition it concerns. Fallible code returns
`Except String`, carrying the exact error message strings of the source. The
parser's single mutable cursor (the `index` object of the source) is threaded
explicitly: each grammar rule takes a position and returns the new position.
-/

namespace MathMcp

/-- A JavaScript number: an exact rational or one of the IEEE special values. -/
inductive JNum where
  | fin (q : ℚ)
  | inf
  | ninf
  | nan
deriving DecidableEq

/-- Whether a JavaScript number is an ordinary finite value. -/
def JNum.isFin : JNum → Bool
  | .fin _ => true
  | _ => false

/-- The JavaScript isNaN predicate on numbers. -/
def jsIsNaN : JNum → Bool
  | .nan => true
  | _ => false

/-- The JavaScript isFinite predicate on numbers. -/
def jsIsFinite : JNum → Bool
  | .fin _ => true
  | _ => false

/-- Result of JavaScript code that may throw: the error message or a value. -/
abbrev Res (α : Type) := Except String α

namespace Arithmetic

/-- Arithmetic.validateNumber (src/build/Classes/Arithmetic.js). The typeof
check of the source is unrepresentable here because the model is typed; the
NaN and finiteness checks are the operative ones. Only Infinity and -Infinity
can reach the value-printing branch, and JavaScript prints them as shown. -/
def validateNumber (value : JNum) (paramName : String) : Res Unit :=
  match value with
  | .nan => .error (paramName ++ " cannot be NaN")
  | .inf => .error (paramName ++ " must be a finite number, received Infinity")
  | .ninf => .error (paramName ++ " must be a finite number, received -Infinity")
  | .fin _ => .ok ()

/-- Arithmetic.add. After validation both operands are finite, so the final
catch-all branch is unreachable; addition of finite doubles is idealized as
exact rational addition (no overflow to Infinity, no rounding). -/
def add (firstNumber secondNumber : JNum) : Res JNum := do
  validateNumber firstNumber "firstNumber"
  validateNumber secondNumber "secondNumber"
  match firstNumber, secondNumber with
  | .fin x, .fin y => pure (.fin (x + y))
  | _, _ => pure .nan

/-- Arithmetic.subtract, idealized as exact rational subtraction. -/
def subtract (minuend subtrahend : JNum) : Res JNum := do
  validateNumber minuend "minuend"
  validateNumber subtrahend "subtrahend"
  match minuend, subtrahend with
  | .fin x, .fin y => pure (.fin (x - y))
  | _, _ => pure .nan

/-- Arithmetic.multiply, idealized as exact rational multiplication. -/
def multiply (firstNumber secondNumber : JNum) : Res JNum := do
  validateNumber firstNumber "firstNumber"
  validateNumber secondNumber "secondNumber"
  match firstNumber, secondNumber with
  | .fin x, .fin y => pure (.fin (x * y))
  | _, _ => pure .nan

/-- Arithmetic.division: the denominator is tested against zero after both
operands are validated, and only then is the quotient formed (idealized as
exact rational division). -/
def division (numerator denominator : JNum) : Res JNum := do
  validateNumber numerator "numerator"
  validateNumber denominator "denominator"
  match numerator, denominator with
  | .fin x, .fin y =>
    if y = 0 then .error "Division by zero is not allowed. Denominator cannot be zero."
    else pure (.fin (x / y))
  | _, _ => pure .nan

/-- The largest finite double, equal to (2 ^ 53 - 1) * 2 ^ 971, written as an
explicit numeral so that it evaluates without iterated exponentiation; it is
the threshold beyond which Math.pow overflows to Infinity (the exact
round-to-infinity threshold differs from this value only by a fraction of an
ulp, which the idealized model ignores). -/
def maxDouble : ℚ := 179769313486231570814527423731704356798070567525844996598917476803157260780028538760589558632766878171540458953514382464234321326889464182768467546703537516986049910576551282076245490090389328944075868508455133942304583236903222948165808559332123348274797826204144723168738177180919299881250404026184124858368

/-- Model of the platform primitive Math.pow on finite arguments, from the
ECMAScript Number::exponentiate specification: a zero exponent gives 1; an
integer exponent gives the exact power, except that 0 to a negative power is
Infinity and magnitudes beyond the largest double overflow to the signed
infinity; a non-integer exponent gives NaN for a negative base and Infinity
or 0 for a zero base. For a positive base and non-integer exponent the true
result is irrational in general and is supplied by the parameter rpow; no
claim depends on that branch. Rounding and underflow-to-zero of finite
results are idealized away. -/
def jsPow (rpow : ℚ → ℚ → ℚ) (base exponent : ℚ) : JNum :=
  if exponent = 0 then .fin 1
  else if exponent.den = 1 then
    if base = 0 then
      if exponent < 0 then .inf else .fin 0
    else
      let r := base ^ exponent.num
      if r > maxDouble then .inf
      else if r < -maxDouble then .ninf
      else .fin r
  else
    if base < 0 then .nan
    else if base = 0 then
      if exponent < 0 then .inf else .fin 0
    else .fin (rpow base exponent)

/-- Arithmetic.power: both operands are validated, but the result of
Math.pow is returned without any finiteness or NaN check. -/
def power (rpow : ℚ → ℚ → ℚ) (base exponent : JNum) : Res JNum := do
  validateNumber base "base"
  validateNumber exponent "exponent"
  match base, exponent with
  | .fin b, .fin e => pure (jsPow rpow b e)
  | _, _ => pure .nan

/-- Arithmetic.sqrt: negative arguments are rejected, so Math.sqrt is only
reached on non-negative finite input, where its (finite) rounded value is
supplied by the parameter rsqrt. -/
def sqrt (rsqrt : ℚ → ℚ) (number : JNum) : Res JNum := do
  validateNumber number "number"
  match number with
  | .fin x =>
    if x < 0 then .error "Cannot calculate square root of negative number"
    else pure (.fin (rsqrt x))
  | _ => pure .nan

/-- Arithmetic.abs. -/
def abs (number : JNum) : Res JNum := do
  validateNumber number "number"
  match number with
  | .fin x => pure (.fin |x|)
  | _ => pure .nan

end Arithmetic

namespace Statistics

/-- Statistics.validateNumberArray (src/src/Classes/Statistics.ts). Array
elements are modelled as exact rationals, so the per-element typeof, NaN and
finiteness checks of the source are vacuously satisfied; the emptiness check
is the operative one. -/
def validateNumberArray (numbers : List ℚ) (paramName : String) : Res Unit :=
  if numbers.length = 0 then .error (paramName ++ " cannot be empty")
  else .ok ()

/-- Statistics.mean: sum via reduce, divided by the element count. -/
def mean (numbers : List ℚ) : Res ℚ := do
  validateNumberArray numbers "numbers"
  pure ((numbers.foldl (· + ·) 0) / (numbers.length : ℚ))

/-- Statistics.min: reduce with the first element as the initial value. -/
def min (numbers : List ℚ) : Res ℚ := do
  validateNumberArray numbers "numbers"
  pure (numbers.foldl (fun m current => if current < m then current else m) (numbers.headD 0))

/-- Statistics.max: reduce with the first element as the initial value. -/
def max (numbers : List ℚ) : Res ℚ := do
  validateNumberArray numbers "numbers"
  pure (numbers.foldl (fun m current => if current > m then current else m) (numbers.headD 0))

/-- Statistics.correlation. The source's single index loop over both arrays
is rendered as folds over the zipped lists (the arrays have equal length at
that point); Math.sqrt of the rational product of the squared sums is
supplied by rsqrt. -/
def correlation (rsqrt : ℚ → ℚ) (xArray yArray : List ℚ) : Res ℚ := do
  validateNumberArray xArray "xArray"
  validateNumberArray yArray "yArray"
  if xArray.length ≠ yArray.length then
    .error ("Arrays must have the same length. xArray has " ++ toString xArray.length ++
      " elements, yArray has " ++ toString yArray.length ++ " elements")
  else if xArray.length < 2 then
    .error "Arrays must have at least 2 elements for correlation calculation"
  else do
    let meanX ← mean xArray
    let meanY ← mean yArray
    let numerator := (xArray.zip yArray).foldl
      (fun acc p => acc + (p.1 - meanX) * (p.2 - meanY)) 0
    let sumXSquares := xArray.foldl (fun acc x => acc + (x - meanX) * (x - meanX)) 0
    let sumYSquares := yArray.foldl (fun acc y => acc + (y - meanY) * (y - meanY)) 0
    let denominator := rsqrt (sumXSquares * sumYSquares)
    if denominator = 0 then pure 0
    else pure (numerator / denominator)

/-- Statistics.covariance: sample covariance with Bessel's correction. -/
def covariance (xArray yArray : List ℚ) : Res ℚ := do
  validateNumberArray xArray "xArray"
  validateNumberArray yArray "yArray"
  if xArray.length ≠ yArray.length then
    .error ("Arrays must have the same length. xArray has " ++ toString xArray.length ++
      " elements, yArray has " ++ toString yArray.length ++ " elements")
  else if xArray.length < 2 then
    .error "Arrays must have at least 2 elements for covariance calculation"
  else do
    let meanX ← mean xArray
    let meanY ← mean yArray
    let sumProducts := (xArray.zip yArray).foldl
      (fun acc p => acc + (p.1 - meanX) * (p.2 - meanY)) 0
    pure (sumProducts / ((xArray.length : ℚ) - 1))

/-- Statistics.zscore: scalar arguments are genuine JavaScript numbers, so
the NaN and finiteness guards are operative (the parser's power operator can
produce non-finite scalars that reach this point). -/
def zscore (value mean stdDev : JNum) : Res JNum :=
  if ¬ value.isFin then .error "value must be a valid finite number"
  else if ¬ mean.isFin then .error "mean must be a valid finite number"
  else if ¬ stdDev.isFin then .error "stdDev must be a valid finite number"
  else
    match value, mean, stdDev with
    | .fin v, .fin m, .fin sd =>
      if sd = 0 then .error "Standard deviation cannot be zero"
      else if sd < 0 then .error "Standard deviation must be positive"
      else .ok (.fin ((v - m) / sd))
    | _, _, _ => .ok .nan

end Statistics

namespace DataScience

/-- DataScience.validateNumberArray (src/unnamed/part_004); as in
Statistics, only the emptiness check is operative on rational elements. -/
def validateNumberArray (numbers : List ℚ) (paramName : String) : Res Unit :=
  if numbers.length = 0 then .error (paramName ++ " cannot be empty")
  else .ok ()

/-- Math.min over a spread argument list (reached only on non-empty lists). -/
def mathMin : List ℚ → ℚ
  | [] => 0
  | h :: t => t.foldl Min.min h

/-- Math.max over a spread argument list (reached only on non-empty lists). -/
def mathMax : List ℚ → ℚ
  | [] => 0
  | h :: t => t.foldl Max.max h

/-- DataScience.normalizeArray: min-max normalization, with an all-zero
result when every element is equal. -/
def normalizeArray (numbers : List ℚ) : Res (List ℚ) := do
  validateNumberArray numbers "numbers"
  let min := mathMin numbers
  let max := mathMax numbers
  if min = max then pure (List.replicate numbers.length 0)
  else
    let range := max - min
    pure (numbers.map (fun num => (num - min) / range))

/-- DataScience.standardizeArray: z-score standardization; Math.sqrt of the
rational variance is supplied by rsqrt. -/
def standardizeArray (rsqrt : ℚ → ℚ) (numbers : List ℚ) : Res (List ℚ) := do
  validateNumberArray numbers "numbers"
  if numbers.length < 2 then
    .error "Array must have at least 2 elements for standardization"
  else
    let mean := (numbers.foldl (· + ·) 0) / (numbers.length : ℚ)
    let variance :=
      (numbers.foldl (fun sum num => sum + (num - mean) * (num - mean)) 0) / (numbers.length : ℚ)
    let stdDev := rsqrt variance
    if stdDev = 0 then pure (List.replicate numbers.length 0)
    else pure (numbers.map (fun num => (num - mean) / stdDev))

end DataScience

/-- The scalar-or-vector intermediate value of the evaluator (TypeScript
number | number[]). -/
inductive Value where
  | num (v : JNum)
  | arr (l : List ℚ)
deriving DecidableEq

namespace ExpressionEvaluator

/-- The immutable constants table, with the exact double values of Math.PI
and Math.E. -/
def CONSTANTS : List (String × ℚ) :=
  [("pi", 884279719003555 / 281474976710656),
   ("e", 6121026514868073 / 2251799813685248)]

/-- The FUNCTIONS table of registered (lower-cased) function names. -/
def FUNCTIONS : List String :=
  ["sqrt", "abs", "power", "floor", "ceil", "round", "sum",
   "roundtoprecision", "floortoprecision", "ceiltoprecision",
   "factorial", "gcd", "lcm",
   "mean", "median", "mode", "min", "max", "variance", "standarddeviation",
   "range", "percentile",
   "correlation", "covariance", "zscore",
   "normalizearray", "standardizearray"]

/-- First character class of the identifier alternative of the token regex. -/
def isIdentStart (c : Char) : Bool := c.isAlpha || c = '_'

/-- Continuation character class of the identifier alternative. -/
def isIdentChar (c : Char) : Bool := c.isAlphanum || c = '_'

/-- Interior character class of the array-literal alternative (digits, comma,
dot, whitespace, minus). -/
def isArrayChar (c : Char) : Bool :=
  c.isDigit || c = ',' || c = '.' || c.isWhitespace || c = '-'

/-- The single-character operator/punctuation alternative (note: no comma). -/
def isOpChar (c : Char) : Bool :=
  c = '+' || c = '-' || c = '*' || c = '/' || c = '^' || c = '(' || c = ')'

/-- Length minus one of the token the tokenizer's regex (identifier, numeric
literal, array literal, or single-character operator, tried in that order)
matches at the head of the input; none when no alternative matches there. -/
def matchLen : List Char → Option ℕ
  | [] => none
  | c :: cs =>
    if isIdentStart c then some (cs.takeWhile isIdentChar).length
    else if c.isDigit then
      let ds := cs.takeWhile Char.isDigit
      match cs.drop ds.length with
      | '.' :: cs2 => some (ds.length + 1 + (cs2.takeWhile Char.isDigit).length)
      | _ => some ds.length
    else if c = '[' then
      let body := cs.takeWhile isArrayChar
      if body.length = 0 then none
      else
        match cs.drop body.length with
        | ']' :: _ => some (body.length + 1)
        | _ => none
    else if isOpChar c then some 0
    else none

/-- Repeated matching of the token regex, as performed by String.match with
a global regex: at each position the longest alternative match is emitted,
and a character at which no alternative matches is skipped silently. -/
def scanTokens : List Char → List String
  | [] => []
  | c :: cs =>
    match matchLen (c :: cs) with
    | some n => String.mk ((c :: cs).take (n + 1)) :: scanTokens ((c :: cs).drop (n + 1))
    | none => scanTokens cs
termination_by l => l.length
decreasing_by
  · simp [List.length_drop]
    omega
  · simp

/-- ExpressionEvaluator.tokenize: strip all whitespace, match the token
regex repeatedly; String.match returns null (here: the empty list) only when
there is no match anywhere in the cleaned string. -/
def tokenize (expression : String) : Res (List String) :=
  let cleaned := expression.toList.filter (fun c => ¬ c.isWhitespace)
  let tokens := scanTokens cleaned
  if tokens = [] then .error "Invalid mathematical expression: no valid tokens found"
  else .ok tokens

/-- Decimal value of a digit string. -/
def decVal (ds : List Char) : ℕ := ds.foldl (fun a c => 10 * a + (c.toNat - 48)) 0

/-- Value of the digits after a decimal point. -/
def fracVal (ds : List Char) : ℚ := (decVal ds : ℚ) / (10 : ℚ) ^ ds.length

/-- Model of the platform primitive parseFloat, restricted to the syntax the
evaluator can feed it (an optional sign, digits with at most one decimal
point; the token classes cannot produce an exponent part or the string
"Infinity"). Trailing unparsable characters are ignored; none stands for
NaN; rounding of the exact decimal value to a double is idealized away. -/
def jsParseFloat (l : List Char) : Option ℚ :=
  let l1 := l.dropWhile Char.isWhitespace
  let signAndRest : ℚ × List Char :=
    match l1 with
    | '-' :: t => (-1, t)
    | '+' :: t => (1, t)
    | _ => (1, l1)
  let sign := signAndRest.1
  let l2 := signAndRest.2
  let intDigits := l2.takeWhile Char.isDigit
  let rest := l2.drop intDigits.length
  let fracDigits :=
    match rest with
    | '.' :: t => t.takeWhile Char.isDigit
    | _ => []
  if intDigits.length = 0 ∧ fracDigits.length = 0 then none
  else some (sign * ((decVal intDigits : ℚ) + fracVal fracDigits))

/-- JavaScript String.prototype.split on a comma separator. -/
def splitComma : List Char → List (List Char)
  | [] => [[]]
  | ',' :: rest => [] :: splitComma rest
  | c :: rest =>
    match splitComma rest with
    | [] => [[c]]
    | h :: t => (c :: h) :: t

/-- JavaScript String.prototype.trim on a character list. -/
def trimChars (l : List Char) : List Char :=
  ((l.dropWhile Char.isWhitespace).reverse.dropWhile Char.isWhitespace).reverse

/-- The element loop of parseArray: parseFloat each element, rejecting NaN
(the finiteness rejection of the source cannot fire on the exact-rational
reading of a decimal literal). -/
def parseNumbers : List (List Char) → Res (List ℚ)
  | [] => .ok []
  | e :: rest =>
    match jsParseFloat e with
    | none => .error ("Invalid number in array: " ++ String.mk e)
    | some num => do
      let tail ← parseNumbers rest
      pure (num :: tail)

/-- ExpressionEvaluator.parseArray: strip the brackets, trim, split on
commas, parse each element; the final emptiness check of the source is kept
although the split of a non-empty interior is never empty. -/
def parseArray (arrayStr : String) : Res (List ℚ) :=
  let inner := trimChars ((arrayStr.toList.drop 1).dropLast)
  if inner = [] then .error "Empty array notation is not allowed"
  else do
    let numbers ← parseNumbers ((splitComma inner).map trimChars)
    if numbers.length = 0 then .error "Array cannot be empty"
    else pure numbers

/-- ExpressionEvaluator.evaluateFunction: the switch over the lower-cased
name. The argument-count and Array.isArray shape checks of each case are
realized by the matches on the argument list, whose fall-through branches
carry the source's error messages. Functions registered in FUNCTIONS but
absent from the switch (floor, ceil, round, sum, power, factorial, gcd, lcm,
the precision functions, median, mode, variance, standarddeviation, range,
percentile) fall to the default branch. -/
def evaluateFunction (rsqrt : ℚ → ℚ) (funcName : String) (args : List Value) : Res Value :=
  match funcName.toLower with
  | "sqrt" =>
    match args with
    | [.num x] => do pure (.num (← Arithmetic.sqrt rsqrt x))
    | _ => .error "sqrt() requires exactly one numeric argument"
  | "abs" =>
    match args with
    | [.num x] => do pure (.num (← Arithmetic.abs x))
    | _ => .error "abs() requires exactly one numeric argument"
  | "mean" =>
    match args with
    | [.arr l] => do pure (.num (.fin (← Statistics.mean l)))
    | _ => .error "mean() requires exactly one array argument"
  | "min" =>
    match args with
    | [.arr l] => do pure (.num (.fin (← Statistics.min l)))
    | _ => .error "min() requires exactly one array argument"
  | "max" =>
    match args with
    | [.arr l] => do pure (.num (.fin (← Statistics.max l)))
    | _ => .error "max() requires exactly one array argument"
  | "correlation" =>
    match args with
    | [.arr x, .arr y] => do pure (.num (.fin (← Statistics.correlation rsqrt x y)))
    | _ => .error "correlation() requires exactly two array arguments"
  | "covariance" =>
    match args with
    | [.arr x, .arr y] => do pure (.num (.fin (← Statistics.covariance x y)))
    | _ => .error "covariance() requires exactly two array arguments"
  | "zscore" =>
    match args with
    | [.num v, .num m, .num sd] => do pure (.num (← Statistics.zscore v m sd))
    | _ => .error "zscore() requires exactly three numeric arguments: value, mean, stdDev"
  | "normalizearray" =>
    match args with
    | [.arr l] => do pure (.arr (← DataScience.normalizeArray l))
    | _ => .error "normalizeArray() requires exactly one array argument"
  | "standardizearray" =>
    match args with
    | [.arr l] => do pure (.arr (← DataScience.standardizeArray rsqrt l))
    | _ => .error "standardizeArray() requires exactly one array argument"
  | _ => .error ("Unsupported function in expression: " ++ funcName)

/-- The evaluation context: the two platform rounding oracles (Math.pow on a
positive base with a non-integer exponent, Math.sqrt) and the constants
table, the latter made explicit so that its preservation across calls can be
stated. -/
structure Ctx where
  rpow : ℚ → ℚ → ℚ
  rsqrt : ℚ → ℚ
  consts : List (String × ℚ)

/-- JavaScript tokens[i]: an out-of-range access yields undefined, modelled
as the empty string, which no comparison in the source matches. Every
operative access is guarded by a bounds check in the source. -/
def tokAt (tokens : List String) (i : ℕ) : String := tokens.getD i ""

/-- Test of the anchored number regex of parseFactor: one or more digits,
then an optional decimal point with optional further digits. -/
def isNumberToken (s : String) : Bool :=
  match s.toList with
  | [] => false
  | c :: cs =>
    c.isDigit &&
      (match cs.drop (cs.takeWhile Char.isDigit).length with
       | [] => true
       | '.' :: t => t.all Char.isDigit
       | _ => false)

/-- JavaScript String.prototype.startsWith for a single character. -/
def headIs (s : String) (c : Char) : Bool :=
  match s.toList with
  | [] => false
  | x :: _ => x = c

/-- JavaScript String.prototype.endsWith for a single character. -/
def lastIs (s : String) (c : Char) : Bool :=
  match s.toList.getLast? with
  | none => false
  | some x => x = c

/-- Error reported when the recursion fuel runs out. The source recursion
terminates on every input (each recursive call either consumes a token or
moves to a strictly higher-precedence rule), and the fuel supplied by
evaluate is large enough that this message is unreachable from it. -/
def fuelMsg : String := "internal recursion limit exceeded"

mutual

/-- ExpressionEvaluator.parseExpression: delegate to the lowest-precedence
rule. -/
def parseExpression : Ctx → ℕ → List String → ℕ → Res (JNum × ℕ)
  | _, 0, _, _ => .error fuelMsg
  | ctx, f + 1, t, i => parseAdditionSubtraction ctx f t i

/-- ExpressionEvaluator.parseAdditionSubtraction: a left-associative loop
over + and -, rendered as an explicit accumulator loop. -/
def parseAdditionSubtraction : Ctx → ℕ → List String → ℕ → Res (JNum × ℕ)
  | _, 0, _, _ => .error fuelMsg
  | ctx, f + 1, t, i => do
    let (left, i1) ← parseMultiplicationDivision ctx f t i
    parseASLoop ctx f t left i1

/-- The while loop of parseAdditionSubtraction. -/
def parseASLoop : Ctx → ℕ → List String → JNum → ℕ → Res (JNum × ℕ)
  | _, 0, _, _, _ => .error fuelMsg
  | ctx, f + 1, t, left, i =>
    if i < t.length ∧ (tokAt t i = "+" ∨ tokAt t i = "-") then
      if tokAt t i = "+" then do
        let (right, i2) ← parseMultiplicationDivision ctx f t (i + 1)
        let v ← Arithmetic.add left right
        parseASLoop ctx f t v i2
      else do
        let (right, i2) ← parseMultiplicationDivision ctx f t (i + 1)
        let v ← Arithmetic.subtract left right
        parseASLoop ctx f t v i2
    else pure (left, i)

/-- ExpressionEvaluator.parseMultiplicationDivision: a left-associative loop
over * and /. -/
def parseMultiplicationDivision : Ctx → ℕ → List String → ℕ → Res (JNum × ℕ)
  | _, 0, _, _ => .error fuelMsg
  | ctx, f + 1, t, i => do
    let (left, i1) ← parsePower ctx f t i
    parseMDLoop ctx f t left i1

/-- The while loop of parseMultiplicationDivision. -/
def parseMDLoop : Ctx → ℕ → List String → JNum → ℕ → Res (JNum × ℕ)
  | _, 0, _, _, _ => .error fuelMsg
  | ctx, f + 1, t, left, i =>
    if i < t.length ∧ (tokAt t i = "*" ∨ tokAt t i = "/") then
      if tokAt t i = "*" then do
        let (right, i2) ← parsePower ctx f t (i + 1)
        let v ← Arithmetic.multiply left right
        parseMDLoop ctx f t v i2
      else do
        let (right, i2) ← parsePower ctx f t (i + 1)
        let v ← Arithmetic.division left right
        parseMDLoop ctx f t v i2
    else pure (left, i)

/-- ExpressionEvaluator.parsePower: right-associative via a single
self-recursive call on the right operand. -/
def parsePower : Ctx → ℕ → List String → ℕ → Res (JNum × ℕ)
  | _, 0, _, _ => .error fuelMsg
  | ctx, f + 1, t, i => do
    let (left, i1) ← parseFactor ctx f t i
    if i1 < t.length ∧ tokAt t i1 = "^" then do
      let (right, i2) ← parsePower ctx f t (i1 + 1)
      let v ← Arithmetic.power ctx.rpow left right
      pure (v, i2)
    else pure (left, i1)

/-- ExpressionEvaluator.parseFactor: signs, parentheses, numbers, array
literals (rejected here), constants, function calls, in the source's order. -/
def parseFactor : Ctx → ℕ → List String → ℕ → Res (JNum × ℕ)
  | _, 0, _, _ => .error fuelMsg
  | ctx, f + 1, t, i =>
    if i ≥ t.length then .error "Unexpected end of expression"
    else
      let token := tokAt t i
      if token = "-" then do
        let (v, i2) ← parseFactor ctx f t (i + 1)
        let r ← Arithmetic.multiply (.fin (-1)) v
        pure (r, i2)
      else if token = "+" then parseFactor ctx f t (i + 1)
      else if token = "(" then do
        let (result, i2) ← parseExpression ctx f t (i + 1)
        if i2 ≥ t.length ∨ tokAt t i2 ≠ ")" then
          .error "Mismatched parentheses: missing closing parenthesis"
        else pure (result, i2 + 1)
      else if isNumberToken token then
        match jsParseFloat token.toList with
        | some num => pure (.fin num, i + 1)
        | none => .error ("Invalid number: " ++ token)
      else if headIs token '[' ∧ lastIs token ']' then
        .error "Array notation can only be used as function arguments"
      else if (ctx.consts.lookup token.toLower).isSome then
        pure (.fin ((ctx.consts.lookup token.toLower).getD 0), i + 1)
      else if FUNCTIONS.contains token.toLower then
        let funcName := token.toLower
        if i + 1 ≥ t.length ∨ tokAt t (i + 1) ≠ "(" then
          .error ("Function " ++ funcName ++ " must be followed by parentheses")
        else do
          let (args, i2) ← parseArgsBlock ctx f t funcName (i + 2)
          let result ← evaluateFunction ctx.rsqrt funcName args
          match result with
          | .arr _ =>
            .error ("Function " ++ funcName ++
              "() returns an array and cannot be used directly in arithmetic expressions. Arrays can only be used as function arguments.")
          | .num v => pure (v, i2)
      else .error ("Unexpected token: " ++ token)

/-- ExpressionEvaluator.parseArgumentExpression: the source special-cases
the two vector-returning names so that their Vector result is preserved;
anything else falls through to parseExpression and collapses to a scalar. -/
def parseArgumentExpression : Ctx → ℕ → List String → ℕ → Res (Value × ℕ)
  | _, 0, _, _ => .error fuelMsg
  | ctx, f + 1, t, i =>
    if i < t.length ∧ FUNCTIONS.contains ((tokAt t i).toLower) ∧
        ((tokAt t i).toLower = "normalizearray" ∨ (tokAt t i).toLower = "standardizearray") then
      let funcName := (tokAt t i).toLower
      if i + 1 ≥ t.length ∨ tokAt t (i + 1) ≠ "(" then
        .error ("Function " ++ funcName ++ " must be followed by parentheses")
      else do
        let (args, i2) ← parseArgsBlock ctx f t funcName (i + 2)
        evaluateFunction ctx.rsqrt funcName args |>.map (fun result => (result, i2))
    else do
      let (q, i2) ← parseExpression ctx f t i
      pure (Value.num q, i2)

/-- The argument-collection block that the source duplicates verbatim inside
parseFactor and parseArgumentExpression: first argument, comma loop, then
the mandatory closing parenthesis (consumed here). -/
def parseArgsBlock : Ctx → ℕ → List String → String → ℕ → Res (List Value × ℕ)
  | _, 0, _, _, _ => .error fuelMsg
  | ctx, f + 1, t, funcName, i => do
    let (args, i1) ←
      if i < t.length ∧ tokAt t i ≠ ")" then
        if headIs (tokAt t i) '[' ∧ lastIs (tokAt t i) ']' then do
          let nums ← parseArray (tokAt t i)
          parseArgsLoop ctx f t [Value.arr nums] (i + 1)
        else do
          let (a, i2) ← parseArgumentExpression ctx f t i
          parseArgsLoop ctx f t [a] i2
      else pure ([], i)
    if i1 < t.length ∧ tokAt t i1 = ")" then
      pure (args, i1 + 1)
    else
      .error ("Mismatched parentheses: missing closing parenthesis for function " ++ funcName)

/-- The additional-arguments while loop of the argument-collection block.
The loop never runs on tokenizer output (the token regex has no comma
alternative, so a bare comma token never exists); it is modelled faithfully
nonetheless. -/
def parseArgsLoop : Ctx → ℕ → List String → List Value → ℕ → Res (List Value × ℕ)
  | _, 0, _, _, _ => .error fuelMsg
  | ctx, f + 1, t, args, i =>
    if i < t.length ∧ tokAt t i = "," then
      if headIs (tokAt t (i + 1)) '[' ∧ lastIs (tokAt t (i + 1)) ']' then do
        let nums ← parseArray (tokAt t (i + 1))
        parseArgsLoop ctx f t (args ++ [Value.arr nums]) (i + 2)
      else do
        let (a, i2) ← parseArgumentExpression ctx f t (i + 1)
        parseArgsLoop ctx f t (args ++ [a]) i2
    else pure (args, i)

end

/-- The parenthesis-counting loop of validateParentheses; the running count
is a natural number, with the source's decrement-then-negative test rendered
as a zero test before decrementing. -/
def validateParensGo : List String → ℕ → Res Unit
  | [], openCount =>
    if openCount > 0 then .error "Mismatched parentheses: missing closing parenthesis"
    else .ok ()
  | token :: rest, openCount =>
    if token = "(" then validateParensGo rest (openCount + 1)
    else if token = ")" then
      if openCount = 0 then .error "Mismatched parentheses: unexpected closing parenthesis"
      else validateParensGo rest (openCount - 1)
    else validateParensGo rest openCount

/-- ExpressionEvaluator.validateParentheses. -/
def validateParentheses (tokens : List String) : Res Unit := validateParensGo tokens 0

/-- JavaScript !expression.trim(): true when the string is all whitespace. -/
def isBlank (s : String) : Bool := s.toList.all Char.isWhitespace

/-- Fuel supplied to the parser; linear in the token count and never
exhausted by the source's recursion, which consumes a token at least every
four nested calls. -/
def fuelFor (tokens : List String) : ℕ := 8 * tokens.length + 8

/-- The body of the try block of ExpressionEvaluator.evaluate: tokenize,
validate parentheses, parse from a fresh cursor, require every token
consumed, require a finite result. -/
def evalCore (ctx : Ctx) (expression : String) : Res JNum := do
  let tokens ← tokenize expression
  validateParentheses tokens
  let (result, i) ← parseExpression ctx (fuelFor tokens) tokens 0
  if i < tokens.length then
    .error ("Unexpected token at end of expression: " ++ tokAt tokens i)
  else if jsIsNaN result || ¬ jsIsFinite result then
    .error "Expression evaluation resulted in an invalid number"
  else pure result

/-- ExpressionEvaluator.evaluate. The typeof-string guard of the source is
unrepresentable in the typed model; the emptiness guard runs before the try
block, so its error is thrown unwrapped, while every error raised inside the
try block is rethrown with the "Invalid mathematical expression: " prefix
around the original message. -/
def evaluate (ctx : Ctx) (expression : String) : Res JNum :=
  if isBlank expression then .error "Expression cannot be empty"
  else
    match evalCore ctx expression with
    | .ok v => .ok v
    | .error e => .error ("Invalid mathematical expression: " ++ e)

/-- One call of the hosting layer into evaluate, returning the result
together with the process-wide constants table as it stands after the call.
The source declares no other cross-call state (CONSTANTS and FUNCTIONS are
static readonly, and the parser cursor is a fresh per-call object), and it
never writes the table, which this state-passing form makes explicit. -/
def evaluateCall (rpow : ℚ → ℚ → ℚ) (rsqrt : ℚ → ℚ) (consts : List (String × ℚ))
    (expression : String) : Res JNum × List (String × ℚ) :=
  (evaluate ⟨rpow, rsqrt, consts⟩ expression, consts)

end ExpressionEvaluator

/-- Decimal digit character for a value below ten. -/
def digitChar (n : ℕ) : Char := Char.ofNat (48 + n)

/-- Decimal digit string of a natural number, most significant digit first. -/
def natDigits (n : ℕ) : List Char :=
  if n < 10 then [digitChar n]
  else natDigits (n / 10) ++ [digitChar (n % 10)]
termination_by n
decreasing_by
  exact Nat.div_lt_self (by omega) (by omega)

/-- Decimal literal string of a natural number, used to quantify over the
numeric literals of the expression language. -/
def natLit (n : ℕ) : String := String.mk (natDigits n)

end MathMcp

section Theorems

set_option maxRecDepth 100000

open MathMcp MathMcp.ExpressionEvaluator

/-- C4: operator precedence and associativity. Multiplication binds tighter
than addition, parentheses override, the power operator is right-associative
(2^3^2 = 2^(3^2) = 512, not (2^3)^2 = 64), and subtraction and division
associate to the left (2-3-4 = (2-3)-4 = -5 and 8/4/2 = (8/4)/2 = 1, not the
right-associative readings 3 and 4). -/
theorem c4_precedence_associativity :
    ∀ (rpow : ℚ → ℚ → ℚ) (rsqrt : ℚ → ℚ),
      evaluate ⟨rpow, rsqrt, CONSTANTS⟩ "2+3*4" = .ok (.fin 14) ∧
      evaluate ⟨rpow, rsqrt, CONSTANTS⟩ "(2+3)*4" = .ok (.fin 20) ∧
      evaluate ⟨rpow, rsqrt, CONSTANTS⟩ "2^3^2" = .ok (.fin 512) ∧
      evaluate ⟨rpow, rsqrt, CONSTANTS⟩ "2^(3^2)" = .ok (.fin 512) ∧
      evaluate ⟨rpow, rsqrt, CONSTANTS⟩ "(2^3)^2" = .ok (.fin 64) ∧
      evaluate ⟨rpow, rsqrt, CONSTANTS⟩ "2-3-4" = .ok (.fin (-5)) ∧
      evaluate ⟨rpow, rsqrt, CONSTANTS⟩ "8/4/2" = .ok (.fin 1) := by
  intro rpow rsqrt
  refine ⟨?_, ?_, ?_, ?_, ?_, ?_, ?_⟩ <;> with_unfolding_all rfl

/-- C3: a vector-returning function used as an argument keeps its Vector
result: normalizeArray([10,20,30,40,50]) evaluates to [0, 1/4, 1/2, 3/4, 1]
inside the argument position of mean, and the whole expression evaluates to
exactly 1/2. -/
theorem c3_nested_vector_argument :
    ∀ (rpow : ℚ → ℚ → ℚ) (rsqrt : ℚ → ℚ),
      evaluate ⟨rpow, rsqrt, CONSTANTS⟩ "mean(normalizeArray([10,20,30,40,50]))" =
        .ok (.fin (1 / 2)) ∧
      DataScience.normalizeArray [10, 20, 30, 40, 50] = .ok [0, 1/4, 1/2, 3/4, 1] := by
  intro rpow rsqrt
  refine ⟨?_, ?_⟩ <;> with_unfolding_all rfl

/-- C1: behaviour of the declared Scalar-from-vector surface under evaluate.
Of the twelve names, only mean, min and max succeed. median, mode, variance,
standardDeviation and range are registered in FUNCTIONS but absent from the
evaluateFunction switch, so they fail with "Unsupported function"; the
multi-argument percentile, correlation, covariance and zscore fail with a
mismatched-parentheses diagnostic because the tokenizer's regex has no comma
alternative and drops argument-separating commas. This contradicts the
claim (and the source's own class documentation, README examples and
FUNCTIONS table), so the claim is recorded as a code bug, witnessed here by
the model's evaluation of each call. -/
theorem c1_scalar_from_vector_dispatch :
    ∀ (rpow : ℚ → ℚ → ℚ) (rsqrt : ℚ → ℚ),
      evaluate ⟨rpow, rsqrt, CONSTANTS⟩ "mean([1,2,3,4,5])" = .ok (.fin 3) ∧
      evaluate ⟨rpow, rsqrt, CONSTANTS⟩ "min([4,2,9])" = .ok (.fin 2) ∧
      evaluate ⟨rpow, rsqrt, CONSTANTS⟩ "max([4,2,9])" = .ok (.fin 9) ∧
      evaluate ⟨rpow, rsqrt, CONSTANTS⟩ "median([1,2,3])" =
        .error "Invalid mathematical expression: Unsupported function in expression: median" ∧
      evaluate ⟨rpow, rsqrt, CONSTANTS⟩ "mode([1,2,3])" =
        .error "Invalid mathematical expression: Unsupported function in expression: mode" ∧
      evaluate ⟨rpow, rsqrt, CONSTANTS⟩ "variance([1,2,3])" =
        .error "Invalid mathematical expression: Unsupported function in expression: variance" ∧
      evaluate ⟨rpow, rsqrt, CONSTANTS⟩ "standardDeviation([1,2,3])" =
        .error "Invalid mathematical expression: Unsupported function in expression: standarddeviation" ∧
      evaluate ⟨rpow, rsqrt, CONSTANTS⟩ "range([1,2,3])" =
        .error "Invalid mathematical expression: Unsupported function in expression: range" ∧
      evaluate ⟨rpow, rsqrt, CONSTANTS⟩ "percentile([1,2,3],50)" =
        .error "Invalid mathematical expression: Mismatched parentheses: missing closing parenthesis for function percentile" ∧
      evaluate ⟨rpow, rsqrt, CONSTANTS⟩ "correlation([1,2],[3,4])" =
        .error "Invalid mathematical expression: Mismatched parentheses: missing closing parenthesis for function correlation" ∧
      evaluate ⟨rpow, rsqrt, CONSTANTS⟩ "covariance([1,2],[3,4])" =
        .error "Invalid mathematical expression: Mismatched parentheses: missing closing parenthesis for function covariance" ∧
      evaluate ⟨rpow, rsqrt, CONSTANTS⟩ "zscore(1,2,3)" =
        .error "Invalid mathematical expression: Mismatched parentheses: missing closing parenthesis for function zscore" := by
  intro rpow rsqrt
  refine ⟨?_, ?_, ?_, ?_, ?_, ?_, ?_, ?_, ?_, ?_, ?_, ?_⟩ <;> with_unfolding_all rfl

/-- C9: evaluate is a deterministic function of its input string and leaves
the only process-wide data, the constants table, unchanged: running the same
call twice in sequence, the second call starting from the state the first
call left behind, yields identical results and the original table. -/
theorem c9_purity :
    ∀ (rpow : ℚ → ℚ → ℚ) (rsqrt : ℚ → ℚ) (consts : List (String × ℚ)) (s : String),
      (evaluateCall rpow rsqrt consts s).2 = consts ∧
      (evaluateCall rpow rsqrt (evaluateCall rpow rsqrt consts s).2 s).1 =
        (evaluateCall rpow rsqrt consts s).1 ∧
      (evaluateCall rpow rsqrt (evaluateCall rpow rsqrt consts s).2 s).2 = consts := by
  intro rpow rsqrt consts s
  exact ⟨rfl, rfl, rfl⟩

/-- C2 counterexample: the input "2@3" contains the character @, at which no
alternative of the token regex matches (first conjunct), yet tokenize
succeeds, silently skipping the character, because String.match with a
global regex only returns null when there is no match anywhere; the input
"2@+3" even evaluates successfully to 5. This refutes the claim that any
input containing an unrecognized character is rejected at the tokenize
stage. -/
theorem c2_counterexample :
    matchLen ['@'] = none ∧
    tokenize "2@3" = .ok ["2", "3"] ∧
    evaluate ⟨fun _ _ => 0, fun _ => 0, CONSTANTS⟩ "2@+3" = .ok (.fin 5) := by
  refine ⟨?_, ?_, ?_⟩ <;> with_unfolding_all rfl

/-- C2 amended: tokenization fails with the TokenizeError message exactly
when the whitespace-stripped input yields zero tokens; characters matching
no token class do not cause tokenize to fail but are skipped, so inputs
containing them may fail later or even succeed. -/
theorem c2_amended :
    (∀ s, tokenize s = .error "Invalid mathematical expression: no valid tokens found" ↔
      scanTokens (s.toList.filter (fun c => !c.isWhitespace)) = []) ∧
    (∀ s ts, tokenize s = .ok ts → ts ≠ []) ∧
    tokenize "@ %" = .error "Invalid mathematical expression: no valid tokens found" ∧
    tokenize "2@3" = .ok ["2", "3"] := by
  refine ⟨?_, ?_, by with_unfolding_all rfl, by with_unfolding_all rfl⟩
  · intro s
    by_cases h : scanTokens (s.toList.filter (fun c => !c.isWhitespace)) = [] <;>
      simp [tokenize, h]
  · intro s ts h
    by_cases hsc : scanTokens (s.data.filter (fun c => !c.isWhitespace)) = []
    · simp [tokenize, String.toList, hsc] at h
    · simp [tokenize, String.toList, hsc] at h
      rw [← h]
      exact hsc

/-- C2 amended witness at concrete inputs. -/
theorem c2_amended_witness :
    tokenize "@" = .error "Invalid mathematical expression: no valid tokens found" ∧
    (["2", "3"] : List String) ≠ [] :=
  ⟨(c2_amended.1 "@").mpr (by with_unfolding_all rfl),
   c2_amended.2.1 "2@3" ["2", "3"] (by with_unfolding_all rfl)⟩

/-- Helper: a successful run of the try-block body always produces a finite
scalar, because the final guard rejects NaN and infinite results. -/
theorem evalCore_ok_fin (ctx : Ctx) (s : String) (v : JNum)
    (h : evalCore ctx s = .ok v) : ∃ q, v = .fin q := by
  unfold evalCore at h
  cases htok : tokenize s with
  | error e => rw [htok] at h; simp [Bind.bind, Except.bind] at h
  | ok tokens =>
    rw [htok] at h
    simp only [Bind.bind, Except.bind] at h
    cases hvp : validateParentheses tokens with
    | error e => rw [hvp] at h; simp at h
    | ok u =>
      rw [hvp] at h
      cases hp : parseExpression ctx (fuelFor tokens) tokens 0 with
      | error e => rw [hp] at h; simp at h
      | ok pr =>
        obtain ⟨result, i⟩ := pr
        rw [hp] at h
        simp only at h
        split at h
        · simp at h
        · split at h
          · simp at h
          · next hcond =>
            cases h
            cases v with
            | fin q => exact ⟨q, rfl⟩
            | inf => simp [jsIsNaN, jsIsFinite] at hcond
            | ninf => simp [jsIsNaN, jsIsFinite] at hcond
            | nan => simp [jsIsNaN, jsIsFinite] at hcond

/-- C5: a Vector may exist only while being consumed as a function
argument. A vector-returning call reaching the + operator or standing alone
as the whole expression fails with the VectorMisuseError message, while the
same call consumed as an argument of mean succeeds; and in general every
successful evaluate call returns a finite Scalar. -/
theorem c5_vector_confinement :
    ∀ (rpow : ℚ → ℚ → ℚ) (rsqrt : ℚ → ℚ),
      evaluate ⟨rpow, rsqrt, CONSTANTS⟩ "normalizeArray([1,2,3]) + 1" =
        .error "Invalid mathematical expression: Function normalizearray() returns an array and cannot be used directly in arithmetic expressions. Arrays can only be used as function arguments." ∧
      evaluate ⟨rpow, rsqrt, CONSTANTS⟩ "normalizeArray([1,2,3])" =
        .error "Invalid mathematical expression: Function normalizearray() returns an array and cannot be used directly in arithmetic expressions. Arrays can only be used as function arguments." ∧
      evaluate ⟨rpow, rsqrt, CONSTANTS⟩ "mean(normalizeArray([1,2,3]))" = .ok (.fin (1 / 2)) ∧
      ∀ (ctx : Ctx) (s : String) (v : JNum), evaluate ctx s = .ok v → ∃ q, v = .fin q := by
  intro rpow rsqrt
  refine ⟨by with_unfolding_all rfl, by with_unfolding_all rfl, by with_unfolding_all rfl, ?_⟩
  intro ctx s v h
  unfold evaluate at h
  split at h
  · simp at h
  · cases hc : evalCore ctx s with
    | error e => rw [hc] at h; simp at h
    | ok w =>
      rw [hc] at h
      cases h
      exact evalCore_ok_fin ctx s _ hc

/-- C5 witness: the general scalar-result component applied at a concrete
successful evaluation. -/
theorem c5_vector_confinement_witness : ∃ q, JNum.fin 2 = JNum.fin q :=
  (c5_vector_confinement (fun _ _ => 0) (fun _ => 0)).2.2.2
    ⟨fun _ _ => 0, fun _ => 0, CONSTANTS⟩ "1+1" (.fin 2) (by with_unfolding_all rfl)

/-- C6 counterexample: the empty input fails with the bare message
"Expression cannot be empty", which does not carry the "invalid expression"
prefix, because the emptiness guard throws before the try block whose catch
adds the prefix. This refutes the claim that the prefix is present for all
failure causes including empty/blank inputs. -/
theorem c6_counterexample :
    evaluate ⟨fun _ _ => 0, fun _ => 0, CONSTANTS⟩ "" = .error "Expression cannot be empty" ∧
    ("Invalid mathematical expression: ".toList.isPrefixOf
      "Expression cannot be empty".toList) = false := by
  refine ⟨?_, ?_⟩ <;> with_unfolding_all rfl

/-- C6 amended: every failure of evaluate is either the unwrapped
"Expression cannot be empty" error for an all-whitespace input (the
unrepresentable non-string input likewise fails before the try block, with
"Expression must be a string"), or carries the
"Invalid mathematical expression: " prefix followed verbatim by the message
of the innermost error raised inside the try block. -/
theorem c6_amended :
    ∀ (ctx : Ctx) (s e : String),
      evaluate ctx s = .error e →
        (isBlank s = true ∧ e = "Expression cannot be empty") ∨
        (isBlank s = false ∧ ∃ inner, e = "Invalid mathematical expression: " ++ inner ∧
          evalCore ctx s = .error inner) := by
  intro ctx s e h
  unfold evaluate at h
  split at h
  · next hb =>
    left
    cases h
    exact ⟨hb, rfl⟩
  · next hb =>
    right
    refine ⟨by simpa using hb, ?_⟩
    cases hc : evalCore ctx s with
    | ok v => rw [hc] at h; simp at h
    | error inner =>
      rw [hc] at h
      cases h
      exact ⟨inner, rfl, rfl⟩

/-- C6 amended witness at the division-by-zero input. -/
theorem c6_amended_witness :
    (isBlank "5/0" = true ∧
      "Invalid mathematical expression: Division by zero is not allowed. Denominator cannot be zero." =
        "Expression cannot be empty") ∨
    (isBlank "5/0" = false ∧ ∃ inner,
      "Invalid mathematical expression: Division by zero is not allowed. Denominator cannot be zero." =
        "Invalid mathematical expression: " ++ inner ∧
      evalCore ⟨fun _ _ => 0, fun _ => 0, CONSTANTS⟩ "5/0" = .error inner) :=
  c6_amended ⟨fun _ _ => 0, fun _ => 0, CONSTANTS⟩ "5/0"
    "Invalid mathematical expression: Division by zero is not allowed. Denominator cannot be zero."
    (by with_unfolding_all rfl)

/-- C7 counterexample: Arithmetic.power validates its operands but not its
result. With finite operands -1 and 1/2 (negative base, fractional
exponent) it returns NaN instead of failing, and with 10 and 400 it returns
Infinity instead of failing, refuting the claim that every value returned
by the scalar primitives is finite and not NaN. -/
theorem c7_counterexample :
    Arithmetic.power (fun _ _ => 0) (.fin (-1)) (.fin (1 / 2)) = .ok .nan ∧
    Arithmetic.power (fun _ _ => 0) (.fin 10) (.fin 400) = .ok .inf ∧
    jsIsNaN .nan = true ∧
    jsIsFinite .inf = false := by
  refine ⟨?_, ?_, ?_, ?_⟩ <;> with_unfolding_all rfl

/-- C7 amended: each scalar primitive validates operand finiteness, and
add, subtract, multiply, divide, sqrt and abs indeed return only finite
values when they succeed (in the exact-arithmetic model); power, however,
only guarantees that its operands were finite — its result is returned
without any check and can be NaN or Infinity. -/
theorem c7_amended :
    ∀ (rpow : ℚ → ℚ → ℚ) (rsqrt : ℚ → ℚ),
      (∀ a b r, Arithmetic.add a b = .ok r → r.isFin = true) ∧
      (∀ a b r, Arithmetic.subtract a b = .ok r → r.isFin = true) ∧
      (∀ a b r, Arithmetic.multiply a b = .ok r → r.isFin = true) ∧
      (∀ a b r, Arithmetic.division a b = .ok r → r.isFin = true) ∧
      (∀ a r, Arithmetic.sqrt rsqrt a = .ok r → r.isFin = true) ∧
      (∀ a r, Arithmetic.abs a = .ok r → r.isFin = true) ∧
      (∀ a b r, Arithmetic.power rpow a b = .ok r → a.isFin = true ∧ b.isFin = true) := by
  intro rpow rsqrt
  refine ⟨?_, ?_, ?_, ?_, ?_, ?_, ?_⟩
  · intro a b r h
    cases a <;> cases b <;>
      simp only [Arithmetic.add, Arithmetic.validateNumber, Bind.bind, Except.bind,
        Pure.pure, Except.pure] at h <;>
      cases h <;> rfl
  · intro a b r h
    cases a <;> cases b <;>
      simp only [Arithmetic.subtract, Arithmetic.validateNumber, Bind.bind, Except.bind,
        Pure.pure, Except.pure] at h <;>
      cases h <;> rfl
  · intro a b r h
    cases a <;> cases b <;>
      simp only [Arithmetic.multiply, Arithmetic.validateNumber, Bind.bind, Except.bind,
        Pure.pure, Except.pure] at h <;>
      cases h <;> rfl
  · intro a b r h
    cases a <;> cases b <;>
      simp only [Arithmetic.division, Arithmetic.validateNumber, Bind.bind, Except.bind,
        Pure.pure, Except.pure] at h <;>
      (try split at h) <;> cases h <;> rfl
  · intro a r h
    cases a <;>
      simp only [Arithmetic.sqrt, Arithmetic.validateNumber, Bind.bind, Except.bind,
        Pure.pure, Except.pure] at h <;>
      (try split at h) <;> cases h <;> rfl
  · intro a r h
    cases a <;>
      simp only [Arithmetic.abs, Arithmetic.validateNumber, Bind.bind, Except.bind,
        Pure.pure, Except.pure] at h <;>
      cases h <;> rfl
  · intro a b r h
    cases a <;> cases b <;>
      simp only [Arithmetic.power, Arithmetic.validateNumber, Bind.bind, Except.bind,
        Pure.pure, Except.pure] at h <;>
      cases h <;> exact ⟨rfl, rfl⟩

/-- C7 amended witness: concrete successful calls of add and power. -/
theorem c7_amended_witness :
    JNum.isFin (JNum.fin 3) = true ∧
    (JNum.isFin (JNum.fin 10) = true ∧ JNum.isFin (JNum.fin 4) = true) :=
  ⟨(c7_amended (fun _ _ => 0) (fun _ => 0)).1 (.fin 1) (.fin 2) (.fin 3)
      (by with_unfolding_all rfl),
   (c7_amended (fun _ _ => 0) (fun _ => 0)).2.2.2.2.2.2 (.fin 10) (.fin 4) (.fin 10000)
      (by with_unfolding_all rfl)⟩

/-- Helper: a fold of min is bounded by its initial value. -/
theorem foldl_min_le_init (t : List ℚ) : ∀ a : ℚ, t.foldl Min.min a ≤ a := by
  induction t with
  | nil => intro a; simp
  | cons x xs ih =>
    intro a
    simp only [List.foldl_cons]
    exact le_trans (ih (Min.min a x)) (min_le_left a x)

/-- Helper: a fold of min yields the initial value or a list element. -/
theorem foldl_min_mem (t : List ℚ) : ∀ a : ℚ, t.foldl Min.min a ∈ a :: t := by
  induction t with
  | nil => intro a; simp
  | cons x xs ih =>
    intro a
    simp only [List.foldl_cons]
    have h := ih (Min.min a x)
    rcases List.mem_cons.1 h with h1 | h2
    · rcases min_choice a x with hm | hm
      · rw [h1, hm]; simp
      · rw [h1, hm]; simp
    · simp [List.mem_cons, h2]

/-- Helper: a fold of min is a lower bound of the list. -/
theorem foldl_min_le (t : List ℚ) : ∀ (a : ℚ), ∀ x ∈ t, t.foldl Min.min a ≤ x := by
  induction t with
  | nil => intro a x hx; simp at hx
  | cons y ys ih =>
    intro a x hx
    simp only [List.foldl_cons]
    rcases List.mem_cons.1 hx with h1 | h2
    · subst h1
      exact le_trans (foldl_min_le_init ys (Min.min a x)) (min_le_right a x)
    · exact ih (Min.min a y) x h2

/-- Helper: a fold of max dominates its initial value. -/
theorem foldl_max_ge_init (t : List ℚ) : ∀ a : ℚ, a ≤ t.foldl Max.max a := by
  induction t with
  | nil => intro a; simp
  | cons x xs ih =>
    intro a
    simp only [List.foldl_cons]
    exact le_trans (le_max_left a x) (ih (Max.max a x))

/-- Helper: a fold of max yields the initial value or a list element. -/
theorem foldl_max_mem (t : List ℚ) : ∀ a : ℚ, t.foldl Max.max a ∈ a :: t := by
  induction t with
  | nil => intro a; simp
  | cons x xs ih =>
    intro a
    simp only [List.foldl_cons]
    have h := ih (Max.max a x)
    rcases List.mem_cons.1 h with h1 | h2
    · rcases max_choice a x with hm | hm
      · rw [h1, hm]; simp
      · rw [h1, hm]; simp
    · simp [List.mem_cons, h2]

/-- Helper: a fold of max is an upper bound of the list. -/
theorem foldl_max_ge (t : List ℚ) : ∀ (a : ℚ), ∀ x ∈ t, x ≤ t.foldl Max.max a := by
  induction t with
  | nil => intro a x hx; simp at hx
  | cons y ys ih =>
    intro a x hx
    simp only [List.foldl_cons]
    rcases List.mem_cons.1 hx with h1 | h2
    · subst h1
      exact le_trans (le_max_right a x) (foldl_max_ge_init ys (Max.max a x))
    · exact ih (Max.max a y) x h2

/-- Helper: the Math.min of a non-empty list is one of its elements. -/
theorem mathMin_mem (l : List ℚ) (h : l ≠ []) : DataScience.mathMin l ∈ l := by
  cases l with
  | nil => exact absurd rfl h
  | cons x t => exact foldl_min_mem t x

/-- Helper: the Math.min of a list is a lower bound. -/
theorem mathMin_le (l : List ℚ) : ∀ x ∈ l, DataScience.mathMin l ≤ x := by
  cases l with
  | nil => intro x hx; simp at hx
  | cons y t =>
    intro x hx
    rcases List.mem_cons.1 hx with h1 | h2
    · subst h1; exact foldl_min_le_init t x
    · exact foldl_min_le t y x h2

/-- Helper: the Math.max of a non-empty list is one of its elements. -/
theorem mathMax_mem (l : List ℚ) (h : l ≠ []) : DataScience.mathMax l ∈ l := by
  cases l with
  | nil => exact absurd rfl h
  | cons x t => exact foldl_max_mem t x

/-- Helper: the Math.max of a list is an upper bound. -/
theorem mathMax_ge (l : List ℚ) : ∀ x ∈ l, x ≤ DataScience.mathMax l := by
  cases l with
  | nil => intro x hx; simp at hx
  | cons y t =>
    intro x hx
    rcases List.mem_cons.1 hx with h1 | h2
    · subst h1; exact foldl_max_ge_init t x
    · exact foldl_max_ge t y x h2

/-- C10: on a non-empty array with at least two distinct values,
normalizeArray succeeds with an array of the same length whose minimum is
exactly 0 (0 occurs and every element is at least 0), whose maximum is
exactly 1 (1 occurs and every element is at most 1); on a non-empty array
of all-equal values it returns the all-zero array of the same length. -/
theorem c10_normalizeArray_bounds :
    ∀ l : List ℚ, l ≠ [] →
      ((∃ a ∈ l, ∃ b ∈ l, a ≠ b) →
        ∃ r, DataScience.normalizeArray l = .ok r ∧
          r.length = l.length ∧ (0 : ℚ) ∈ r ∧ (1 : ℚ) ∈ r ∧ ∀ x ∈ r, 0 ≤ x ∧ x ≤ 1) ∧
      ((∀ a ∈ l, ∀ b ∈ l, a = b) →
        DataScience.normalizeArray l = .ok (List.replicate l.length 0)) := by
  intro l hne
  have h0 : ¬ l.length = 0 := by simpa [List.length_eq_zero] using hne
  constructor
  · rintro ⟨a, ha, b, hb, hab⟩
    have hmn_le_a := mathMin_le l a ha
    have hmn_le_b := mathMin_le l b hb
    have ha_le_mx := mathMax_ge l a ha
    have hb_le_mx := mathMax_ge l b hb
    have hmnmx : DataScience.mathMin l ≠ DataScience.mathMax l := by
      intro heq
      apply hab
      apply le_antisymm <;> linarith
    have hlt : DataScience.mathMin l < DataScience.mathMax l :=
      lt_of_le_of_ne (le_trans hmn_le_a ha_le_mx) hmnmx
    have hrangepos : (0 : ℚ) < DataScience.mathMax l - DataScience.mathMin l := by linarith
    refine ⟨l.map (fun num => (num - DataScience.mathMin l) /
        (DataScience.mathMax l - DataScience.mathMin l)), ?_, ?_, ?_, ?_, ?_⟩
    · simp [DataScience.normalizeArray, DataScience.validateNumberArray, h0,
        Bind.bind, Except.bind, Pure.pure, Except.pure, hmnmx]
    · simp
    · exact List.mem_map.2 ⟨DataScience.mathMin l, mathMin_mem l hne, by simp⟩
    · exact List.mem_map.2 ⟨DataScience.mathMax l, mathMax_mem l hne,
        div_self (ne_of_gt hrangepos)⟩
    · intro x hx
      obtain ⟨y, hy, rfl⟩ := List.mem_map.1 hx
      constructor
      · exact div_nonneg (by have := mathMin_le l y hy; linarith) (le_of_lt hrangepos)
      · rw [div_le_one hrangepos]
        have := mathMax_ge l y hy
        linarith
  · intro hall
    have heq : DataScience.mathMin l = DataScience.mathMax l :=
      hall _ (mathMin_mem l hne) _ (mathMax_mem l hne)
    simp [DataScience.normalizeArray, DataScience.validateNumberArray, h0,
      Bind.bind, Except.bind, Pure.pure, Except.pure, heq]

/-- C10 witness at the concrete arrays [1, 2] and [3, 3]. -/
theorem c10_normalizeArray_witness :
    (∃ r, DataScience.normalizeArray [(1 : ℚ), 2] = .ok r ∧
      r.length = ([(1 : ℚ), 2]).length ∧ (0 : ℚ) ∈ r ∧ (1 : ℚ) ∈ r ∧
      ∀ x ∈ r, 0 ≤ x ∧ x ≤ 1) ∧
    DataScience.normalizeArray [(3 : ℚ), 3] = .ok (List.replicate ([(3 : ℚ), 3]).length 0) :=
  ⟨(c10_normalizeArray_bounds [1, 2] (by simp)).1
      ⟨1, by simp, 2, by simp, by norm_num⟩,
   (c10_normalizeArray_bounds [3, 3] (by simp)).2
      (by intro a ha b hb
          simp only [List.mem_cons, List.not_mem_nil, or_false] at ha hb
          rcases ha with rfl | rfl <;> rcases hb with rfl | rfl <;> rfl)⟩

/-- Helper: every character of a decimal digit string is a decimal digit. -/
theorem natDigits_digit (m : ℕ) :
    ∀ c ∈ natDigits m, c ∈ ['0', '1', '2', '3', '4', '5', '6', '7', '8', '9'] := by
  induction m using Nat.strong_induction_on with
  | _ m ih =>
    intro c hc
    rw [natDigits] at hc
    split at hc
    · next h =>
      simp only [List.mem_singleton] at hc
      subst hc
      interval_cases m <;> decide
    · next h =>
      rcases List.mem_append.1 hc with h1 | h2
      · exact ih (m / 10) (Nat.div_lt_self (by omega) (by omega)) c h1
      · simp only [List.mem_singleton] at h2
        subst h2
        have : m % 10 < 10 := Nat.mod_lt _ (by omega)
        interval_cases h : m % 10 <;> decide

/-- Helper: bundled character-class facts about a decimal digit. -/
theorem digit_char_props (c : Char)
    (h : c ∈ ['0', '1', '2', '3', '4', '5', '6', '7', '8', '9']) :
    c.isDigit = true ∧ isIdentStart c = false ∧ isOpChar c = false ∧
    c ≠ '.' ∧ c ≠ '[' ∧ c ≠ ']' ∧ c ≠ ',' ∧ c ≠ '-' ∧ c ≠ '+' ∧
    c.isWhitespace = false := by
  fin_cases h <;> exact ⟨rfl, rfl, rfl, by decide, by decide, by decide, by decide,
    by decide, by decide, rfl⟩

/-- Helper: a decimal digit string is never empty. -/
theorem natDigits_ne_nil (m : ℕ) : natDigits m ≠ [] := by
  rw [natDigits]
  split <;> simp

/-- Helper: the numeric value of a digit character below ten. -/
theorem digitChar_toNat (n : ℕ) (h : n < 10) : (digitChar n).toNat = 48 + n := by
  interval_cases n <;> decide

/-- Helper: appending one digit multiplies the decimal value by ten. -/
theorem decVal_append (xs : List Char) (c : Char) :
    decVal (xs ++ [c]) = 10 * decVal xs + (c.toNat - 48) := by
  simp [decVal, List.foldl_append]

/-- Helper: the decimal value of the digit string of m is m. -/
theorem decVal_natDigits (m : ℕ) : decVal (natDigits m) = m := by
  induction m using Nat.strong_induction_on with
  | _ m ih =>
    rw [natDigits]
    split
    · next h =>
      simp [decVal, digitChar_toNat m h]
    · next h =>
      rw [decVal_append, ih (m / 10) (Nat.div_lt_self (by omega) (by omega)),
        digitChar_toNat (m % 10) (Nat.mod_lt _ (by omega))]
      omega

/-- Helper: takeWhile over an append whose left part satisfies the test. -/
theorem takeWhile_append_of_all {α : Type} (p : α → Bool) (xs ys : List α)
    (h : ∀ x ∈ xs, p x = true) :
    (xs ++ ys).takeWhile p = xs ++ ys.takeWhile p := by
  induction xs with
  | nil => simp
  | cons a t ih =>
    simp only [List.cons_append, List.takeWhile_cons, h a (by simp)]
    rw [ih (fun x hx => h x (by simp [hx]))]
    simp

/-- Helper: takeWhile of a list all of whose elements satisfy the test. -/
theorem takeWhile_of_all {α : Type} (p : α → Bool) (xs : List α)
    (h : ∀ x ∈ xs, p x = true) : xs.takeWhile p = xs := by
  have := takeWhile_append_of_all p xs [] h
  simpa using this

/-- Helper: dropWhile of a list none of whose elements satisfies the test. -/
theorem dropWhile_of_none {α : Type} (p : α → Bool) (xs : List α)
    (h : ∀ x ∈ xs, p x = false) : xs.dropWhile p = xs := by
  cases xs with
  | nil => simp
  | cons a t => simp [List.dropWhile_cons, h a (by simp)]

/-- Helper: the token regex matches exactly the leading digit run when the
remainder neither starts with a digit nor with a decimal point. -/
theorem matchLen_digit_run (c : Char) (cs rest : List Char)
    (hc : c.isDigit = true) (hs : isIdentStart c = false)
    (hcs : ∀ x ∈ cs, x.isDigit = true)
    (h1 : rest.takeWhile Char.isDigit = [])
    (h2 : rest.head? ≠ some '.') :
    matchLen (c :: (cs ++ rest)) = some cs.length := by
  have htw : (cs ++ rest).takeWhile Char.isDigit = cs := by
    rw [takeWhile_append_of_all Char.isDigit cs rest hcs, h1, List.append_nil]
  simp only [matchLen, hs, hc, htw, Bool.false_eq_true, if_false, if_true, List.drop_left]
  cases rest with
  | nil => rfl
  | cons r rs =>
    simp only [List.head?] at h2
    cases hr : r == '.' with
    | true =>
      exact absurd (congrArg some (beq_iff_eq.1 hr)) h2
    | false =>
      have hne : r ≠ '.' := by simpa using hr
      split
      · next heq =>
        injection heq with h3 h4
        exact absurd h3 hne
      · rfl

/-- Helper: the scanner emits the leading digit run as one token when the
remainder starts with neither a digit nor a decimal point. -/
theorem scanTokens_digit_block (c : Char) (cs rest : List Char)
    (hc : c.isDigit = true) (hs : isIdentStart c = false)
    (hcs : ∀ x ∈ cs, x.isDigit = true)
    (h1 : rest.takeWhile Char.isDigit = [])
    (h2 : rest.head? ≠ some '.') :
    scanTokens (c :: (cs ++ rest)) = String.mk (c :: cs) :: scanTokens rest := by
  rw [scanTokens, matchLen_digit_run c cs rest hc hs hcs h1 h2]
  simp [List.take_succ_cons, List.drop_succ_cons, List.take_left, List.drop_left]

/-- Helper: the scanner emits a slash as a single-character token. -/
theorem scanTokens_slash (X : List Char) : scanTokens ('/' :: X) = "/" :: scanTokens X := by
  rw [scanTokens]
  rfl

/-- Helper: the full scan of a digit run, a slash and a second digit run. -/
theorem scanTokens_div_expr (m n : ℕ) :
    scanTokens (natDigits m ++ '/' :: natDigits n) = [natLit m, "/", natLit n] := by
  obtain ⟨c, cs, hm⟩ : ∃ c cs, natDigits m = c :: cs := by
    cases h : natDigits m with
    | nil => exact absurd h (natDigits_ne_nil m)
    | cons c cs => exact ⟨c, cs, rfl⟩
  obtain ⟨d, ds, hn⟩ : ∃ d ds, natDigits n = d :: ds := by
    cases h : natDigits n with
    | nil => exact absurd h (natDigits_ne_nil n)
    | cons d ds => exact ⟨d, ds, rfl⟩
  have hcm : c.isDigit = true :=
    (digit_char_props c (natDigits_digit m c (by rw [hm]; exact List.mem_cons_self c cs))).1
  have hsm : isIdentStart c = false :=
    (digit_char_props c (natDigits_digit m c (by rw [hm]; exact List.mem_cons_self c cs))).2.1
  have hcsm : ∀ x ∈ cs, x.isDigit = true := fun x hx =>
    (digit_char_props x (natDigits_digit m x (by rw [hm]; exact List.mem_cons_of_mem c hx))).1
  have hdn : d.isDigit = true :=
    (digit_char_props d (natDigits_digit n d (by rw [hn]; exact List.mem_cons_self d ds))).1
  have hsn : isIdentStart d = false :=
    (digit_char_props d (natDigits_digit n d (by rw [hn]; exact List.mem_cons_self d ds))).2.1
  have hdsn : ∀ x ∈ ds, x.isDigit = true := fun x hx =>
    (digit_char_props x (natDigits_digit n x (by rw [hn]; exact List.mem_cons_of_mem d hx))).1
  rw [hm, hn, List.cons_append,
    scanTokens_digit_block c cs ('/' :: (d :: ds)) hcm hsm hcsm rfl (by simp),
    scanTokens_slash,
    show (d :: ds) = d :: (ds ++ []) by simp,
    scanTokens_digit_block d ds [] hdn hsn hdsn rfl (by simp)]
  simp [natLit, hm, hn, scanTokens]

/-- Helper: a decimal literal token is none of the punctuation tokens. -/
theorem natLit_ne_special (m : ℕ) :
    natLit m ≠ "-" ∧ natLit m ≠ "+" ∧ natLit m ≠ "(" ∧ natLit m ≠ ")" ∧
    natLit m ≠ "*" ∧ natLit m ≠ "/" ∧ natLit m ≠ "^" ∧ natLit m ≠ "," := by
  have key : ∀ c : Char, natLit m = String.mk [c] →
      c ∈ ['0', '1', '2', '3', '4', '5', '6', '7', '8', '9'] := by
    intro c h
    have hd : natDigits m = [c] := congrArg String.data h
    exact natDigits_digit m c (by rw [hd]; exact List.mem_singleton_self c)
  refine ⟨?_, ?_, ?_, ?_, ?_, ?_, ?_, ?_⟩ <;>
    · intro h
      have h2 := key _ h
      simp at h2

/-- Helper: a decimal literal token passes the anchored number regex. -/
theorem natLit_isNumberToken (m : ℕ) : isNumberToken (natLit m) = true := by
  obtain ⟨c, cs, hm⟩ : ∃ c cs, natDigits m = c :: cs := by
    cases h : natDigits m with
    | nil => exact absurd h (natDigits_ne_nil m)
    | cons c cs => exact ⟨c, cs, rfl⟩
  have hcm : c.isDigit = true :=
    (digit_char_props c (natDigits_digit m c (by rw [hm]; exact List.mem_cons_self c cs))).1
  have hcsm : ∀ x ∈ cs, x.isDigit = true := fun x hx =>
    (digit_char_props x (natDigits_digit m x (by rw [hm]; exact List.mem_cons_of_mem c hx))).1
  have htl : (natLit m).toList = c :: cs := by
    simp [natLit, hm, String.toList]
  rw [isNumberToken, htl]
  simp [hcm, takeWhile_of_all Char.isDigit cs hcsm, List.drop_length]

/-- Helper: parseFloat reads a decimal literal token back as its value. -/
theorem natLit_parseFloat (m : ℕ) : jsParseFloat (natLit m).data = some (m : ℚ) := by
  obtain ⟨c, cs, hm⟩ : ∃ c cs, natDigits m = c :: cs := by
    cases h : natDigits m with
    | nil => exact absurd h (natDigits_ne_nil m)
    | cons c cs => exact ⟨c, cs, rfl⟩
  have props := fun (x : Char) (hx : x ∈ natDigits m) =>
    digit_char_props x (natDigits_digit m x hx)
  have hcm : c.isDigit = true := (props c (by rw [hm]; exact List.mem_cons_self c cs)).1
  have hall : ∀ x ∈ c :: cs, x.isDigit = true := by
    intro x hx
    exact (props x (by rw [hm]; exact hx)).1
  have hws : ∀ x ∈ c :: cs, x.isWhitespace = false := by
    intro x hx
    exact (props x (by rw [hm]; exact hx)).2.2.2.2.2.2.2.2.2
  have hdash : c ≠ '-' := (props c (by rw [hm]; exact List.mem_cons_self c cs)).2.2.2.2.2.2.2.1
  have hplus : c ≠ '+' := (props c (by rw [hm]; exact List.mem_cons_self c cs)).2.2.2.2.2.2.2.2.1
  have htl : (natLit m).data = c :: cs := by
    simp [natLit, hm]
  have h0 : (natLit m).data.dropWhile Char.isWhitespace = c :: cs := by
    rw [htl]
    exact dropWhile_of_none _ _ hws
  have hval : decVal (c :: cs) = m := by
    rw [← hm]
    exact decVal_natDigits m
  simp only [jsParseFloat, h0]
  split
  · next heq =>
    exfalso
    split at heq
    · next h3 =>
      injection h3 with h4 _
      exact absurd h4 hdash
    · next h3 =>
      injection h3 with h4 _
      exact absurd h4 hplus
    · rw [takeWhile_of_all Char.isDigit (c :: cs) hall] at heq
      simp at heq
  · split
    · next h3 =>
      injection h3 with h4 _
      exact absurd h4 hdash
    · next h3 =>
      injection h3 with h4 _
      exact absurd h4 hplus
    · rw [takeWhile_of_all Char.isDigit (c :: cs) hall, List.drop_length]
      simp [fracVal, decVal]
      simpa [decVal] using hval

/-- Helper: tokenizing the string of two decimal literals joined by a slash
yields exactly the three expected tokens. -/
theorem tokenize_div (m n : ℕ) :
    tokenize (natLit m ++ "/" ++ natLit n) = .ok [natLit m, "/", natLit n] := by
  have hdata : (natLit m ++ "/" ++ natLit n).data = natDigits m ++ '/' :: natDigits n := by
    simp [natLit, String.data_append]
  have hfilter : List.filter (fun c => decide (¬ c.isWhitespace = true))
      (natLit m ++ "/" ++ natLit n).data = natDigits m ++ '/' :: natDigits n := by
    rw [hdata]
    apply List.filter_eq_self.mpr
    intro a ha
    rcases List.mem_append.1 ha with h1 | h2
    · simp [(digit_char_props a (natDigits_digit m a h1)).2.2.2.2.2.2.2.2.2]
    · rcases List.mem_cons.1 h2 with rfl | h3
      · rfl
      · simp [(digit_char_props a (natDigits_digit n a h3)).2.2.2.2.2.2.2.2.2]
  simp only [tokenize, String.toList]
  rw [hfilter, scanTokens_div_expr]
  simp

/-- Helper: parseFactor at a decimal literal token consumes it and returns
its value. -/
theorem parseFactor_natLit (ctx : Ctx) (f : ℕ) (t : List String) (i m : ℕ)
    (hi : i < t.length) (ht : tokAt t i = natLit m) :
    parseFactor ctx (f + 1) t i = .ok (.fin (m : ℚ), i + 1) := by
  have hge : ¬ i ≥ t.length := by omega
  rw [parseFactor]
  simp [hge, ht, (natLit_ne_special m).1, (natLit_ne_special m).2.1,
    (natLit_ne_special m).2.2.1, natLit_isNumberToken, natLit_parseFloat,
    Pure.pure, Except.pure]

/-- Helper: parsePower at a decimal literal token not followed by a caret. -/
theorem parsePower_natLit (ctx : Ctx) (f : ℕ) (t : List String) (i m : ℕ)
    (hi : i < t.length) (ht : tokAt t i = natLit m)
    (hstop : ¬ (i + 1 < t.length ∧ tokAt t (i + 1) = "^")) :
    parsePower ctx (f + 2) t i = .ok (.fin (m : ℚ), i + 1) := by
  rw [show f + 2 = (f + 1) + 1 from rfl, parsePower,
    parseFactor_natLit ctx f t i m hi ht]
  simp [Bind.bind, Except.bind, hstop, Pure.pure, Except.pure]

/-- Helper: the multiplication/division loop stops when the cursor is not at
a star or slash token. -/
theorem parseMDLoop_stop (ctx : Ctx) (f : ℕ) (t : List String) (left : JNum) (i : ℕ)
    (h : ¬ (i < t.length ∧ (tokAt t i = "*" ∨ tokAt t i = "/"))) :
    parseMDLoop ctx (f + 1) t left i = .ok (left, i) := by
  rw [parseMDLoop, if_neg h]
  rfl

/-- Helper: the addition/subtraction loop stops when the cursor is not at a
plus or minus token. -/
theorem parseASLoop_stop (ctx : Ctx) (f : ℕ) (t : List String) (left : JNum) (i : ℕ)
    (h : ¬ (i < t.length ∧ (tokAt t i = "+" ∨ tokAt t i = "-"))) :
    parseASLoop ctx (f + 1) t left i = .ok (left, i) := by
  rw [parseASLoop, if_neg h]
  rfl

/-- Helper: the fused parse-and-evaluate run of the token sequence literal,
slash, literal: division applies with the two literal values, the loops stop
at the end of input, and the cursor finishes at three. -/
theorem parseExpression_div (ctx : Ctx) (m n : ℕ) (hn : (n : ℚ) ≠ 0) (f : ℕ) :
    parseExpression ctx (f + 8) [natLit m, "/", natLit n] 0 =
      .ok (.fin ((m : ℚ) / (n : ℚ)), 3) := by
  have h0 : tokAt [natLit m, "/", natLit n] 0 = natLit m := rfl
  have h1 : tokAt [natLit m, "/", natLit n] 1 = "/" := rfl
  have h2 : tokAt [natLit m, "/", natLit n] 2 = natLit n := rfl
  have hlen : ([natLit m, "/", natLit n] : List String).length = 3 := rfl
  have hdiv : Arithmetic.division (.fin (m : ℚ)) (.fin (n : ℚ)) =
      .ok (.fin ((m : ℚ) / (n : ℚ))) := by
    simp [Arithmetic.division, Arithmetic.validateNumber, Bind.bind, Except.bind,
      Pure.pure, Except.pure, hn]
  have hpow0 : parsePower ctx (f + 5) [natLit m, "/", natLit n] 0 = .ok (.fin (m : ℚ), 1) := by
    rw [show f + 5 = (f + 3) + 2 from rfl]
    exact parsePower_natLit ctx (f + 3) _ 0 m (by rw [hlen]; omega) h0
      (by rw [hlen]; rw [show (0 : ℕ) + 1 = 1 from rfl, h1]; simp)
  have hpow2 : parsePower ctx (f + 4) [natLit m, "/", natLit n] 2 = .ok (.fin (n : ℚ), 3) := by
    rw [show f + 4 = (f + 2) + 2 from rfl]
    exact parsePower_natLit ctx (f + 2) _ 2 n (by rw [hlen]; omega) h2
      (by rw [hlen]; simp)
  have hmdloop : parseMDLoop ctx (f + 5) [natLit m, "/", natLit n] (.fin (m : ℚ)) 1 =
      .ok (.fin ((m : ℚ) / (n : ℚ)), 3) := by
    have hcond : 1 < ([natLit m, "/", natLit n] : List String).length ∧
        (tokAt [natLit m, "/", natLit n] 1 = "*" ∨ tokAt [natLit m, "/", natLit n] 1 = "/") :=
      ⟨by rw [hlen]; omega, Or.inr h1⟩
    rw [show f + 5 = (f + 4) + 1 from rfl, parseMDLoop, if_pos hcond,
      if_neg (show ¬ tokAt [natLit m, "/", natLit n] 1 = "*" by rw [h1]; simp)]
    rw [show (1 : ℕ) + 1 = 2 from rfl, hpow2]
    simp only [Bind.bind, Except.bind, hdiv]
    rw [show f + 4 = (f + 3) + 1 from rfl]
    exact parseMDLoop_stop ctx (f + 3) _ _ 3 (by rw [hlen]; simp)
  rw [show f + 8 = (f + 7) + 1 from rfl, parseExpression,
    show f + 7 = (f + 6) + 1 from rfl, parseAdditionSubtraction,
    show f + 6 = (f + 5) + 1 from rfl, parseMultiplicationDivision, hpow0]
  simp only [Bind.bind, Except.bind, hmdloop]
  exact parseASLoop_stop ctx (f + 5) _ _ 3 (by rw [hlen]; simp)

/-- C8: division by a zero denominator always fails and never returns a
value: the concrete expression 5/0 fails with the ArithmeticError message,
the division primitive rejects a zero denominator for every (finite,
validated) numerator, and for every pair of decimal literals m and n with n
nonzero, the full evaluate pipeline on the string "m/n" returns exactly m/n. -/
theorem c8_division_by_zero :
    ∀ (rpow : ℚ → ℚ → ℚ) (rsqrt : ℚ → ℚ),
      evaluate ⟨rpow, rsqrt, CONSTANTS⟩ "5/0" =
        .error "Invalid mathematical expression: Division by zero is not allowed. Denominator cannot be zero." ∧
      (∀ a : JNum, a.isFin = true →
        Arithmetic.division a (.fin 0) =
          .error "Division by zero is not allowed. Denominator cannot be zero.") ∧
      (∀ x y : ℚ, y ≠ 0 → Arithmetic.division (.fin x) (.fin y) = .ok (.fin (x / y))) ∧
      (∀ m n : ℕ, n ≠ 0 →
        evaluate ⟨rpow, rsqrt, CONSTANTS⟩ (natLit m ++ "/" ++ natLit n) =
          .ok (.fin ((m : ℚ) / (n : ℚ)))) := by
  intro rpow rsqrt
  refine ⟨by with_unfolding_all rfl, ?_, ?_, ?_⟩
  · intro a ha
    cases a <;>
      simp_all [JNum.isFin, Arithmetic.division, Arithmetic.validateNumber,
        Bind.bind, Except.bind, Pure.pure, Except.pure]
  · intro x y hy
    simp [Arithmetic.division, Arithmetic.validateNumber, Bind.bind, Except.bind,
      Pure.pure, Except.pure, hy]
  · intro m n hn
    have hq : (n : ℚ) ≠ 0 := Nat.cast_ne_zero.2 hn
    have hblank : isBlank (natLit m ++ "/" ++ natLit n) = false := by
      simp [isBlank, String.toList, String.data_append, natLit, List.all_append]
    have hvp : validateParentheses [natLit m, "/", natLit n] = .ok () := by
      simp [validateParentheses, validateParensGo, (natLit_ne_special m).2.2.1,
        (natLit_ne_special m).2.2.2.1, (natLit_ne_special n).2.2.1,
        (natLit_ne_special n).2.2.2.1]
    have hrun := parseExpression_div ⟨rpow, rsqrt, CONSTANTS⟩ m n hq 24
    simp only [evaluate, hblank, Bool.false_eq_true, if_false]
    simp only [evalCore, Bind.bind, Except.bind, tokenize_div, hvp]
    rw [show fuelFor [natLit m, "/", natLit n] = 24 + 8 from rfl, hrun]
    simp [jsIsNaN, jsIsFinite, Pure.pure, Except.pure]

/-- C8 witness at concrete inputs: a rejected zero denominator, a successful
primitive division, and the evaluated string 8/2. -/
theorem c8_division_by_zero_witness :
    Arithmetic.division (.fin 5) (.fin 0) =
      .error "Division by zero is not allowed. Denominator cannot be zero." ∧
    Arithmetic.division (.fin 8) (.fin 2) = .ok (.fin ((8 : ℚ) / 2)) ∧
    evaluate ⟨fun _ _ => 0, fun _ => 0, CONSTANTS⟩ (natLit 8 ++ "/" ++ natLit 2) =
      .ok (.fin ((8 : ℚ) / (2 : ℚ))) :=
  ⟨(c8_division_by_zero (fun _ _ => 0) (fun _ => 0)).2.1 (.fin 5) rfl,
   (c8_division_by_zero (fun _ _ => 0) (fun _ => 0)).2.2.1 8 2 (by norm_num),
   (c8_division_by_zero (fun _ _ => 0) (fun _ => 0)).2.2.2 8 2 (by norm_num)⟩

end Theorems
